import Mathlib

/-!
# Verification of the FTPR scraper (`scraper.py`)

Shallow embedding of the first-time-pass-rate scraper for GitHub / GitLab
CI pipelines.  Network I/O is modelled by oracle functions: each embedded
function takes, in place of an HTTP call, the (already parsed) body that the
call would have produced, as an `Option` (`none` = the requester returned no
usable response, or the parsed JSON body was falsy in Python).

Python truthiness is modelled explicitly where the source tests it
(`if not initial_sha`, `if not pipeline_id`, `if conclusion:`,
`if reset_time:`): the empty string and the integer `0` are falsy.
Python `float` arithmetic is modelled by exact rationals (`ℚ`).
-/

/-- Python truthiness filter for an optional string: `some ""` is falsy. -/
def truthyStr (o : Option String) : Option String :=
  match o with
  | some "" => none
  | x => x

/-- Python truthiness filter for an optional integer: `some 0` is falsy. -/
def truthyNat (o : Option Nat) : Option Nat :=
  match o with
  | some 0 => none
  | x => x

/-- Python `round(x, 2)`: round to two decimal places.  The exact tie-breaking
rule of Python's float `round` is irrelevant to the claims below (both sides of
every equation use this same function); we use Mathlib's `round`. -/
def pyRound2 (q : ℚ) : ℚ :=
  ((round (q * 100) : ℤ) : ℚ) / 100

/-- A raw GitHub check-run entry, as parsed from the `check-runs` endpoint:
`name` and `conclusion` are looked up with `.get`, so either may be absent. -/
structure CheckRun where
  name : Option String
  conclusion : Option String
deriving DecidableEq, Repr

/-- A counted check in the GitHub detail record (`{'name': ..., 'conclusion': ...}`). -/
structure GHCheck where
  name : String
  conclusion : String
deriving DecidableEq, Repr

/-- The GitHub detail dict built by `_check_all_github_checks_passed`:
`{'checks': [...], 'total': n, 'passed': p, 'failed': f}` with an optional
`'error'` key (`none` models the key being absent). -/
structure GHDetails where
  checks : List GHCheck
  total : Nat
  passed : Nat
  failed : Nat
  error : Option String
deriving DecidableEq, Repr

/-- One step of the counting loop over check-runs in
`_check_all_github_checks_passed`: a check is counted only when its
`conclusion` is truthy (`if conclusion:`). -/
def countGithubCheck (d : GHDetails) (c : CheckRun) : GHDetails :=
  match truthyStr c.conclusion with
  | none => d
  | some conc =>
    { d with
      total := d.total + 1
      checks := d.checks ++ [{ name := c.name.getD "unknown", conclusion := conc }]
      passed := if conc = "success" then d.passed + 1 else d.passed
      failed := if conc = "success" then d.failed else d.failed + 1 }

/-- The counting loop of `_check_all_github_checks_passed` over the
`check_runs` list. -/
def countGithubChecks (runs : List CheckRun) : GHDetails :=
  runs.foldl countGithubCheck { checks := [], total := 0, passed := 0, failed := 0, error := none }

/-- `_check_all_github_checks_passed`.  `checkRunsResp` is the parsed
`check_runs` field of the check-runs endpoint (`none` when the requester
returned no usable response); `statusResp` is the `state` field of the
combined-status endpoint (`none` likewise).  The check-runs branch is taken
only when the list is nonempty (`if check_runs:`); otherwise the function
falls back to the combined status, and failing that returns the
`'No checks found'` record. -/
def check_all_github_checks_passed (checkRunsResp : Option (List CheckRun))
    (statusResp : Option String) : Bool × GHDetails :=
  match checkRunsResp with
  | some (c :: cs) =>
    let d := countGithubChecks (c :: cs)
    (decide (0 < d.total) && decide (d.failed = 0), d)
  | _ =>
    match statusResp with
    | some state =>
      if state = "success" then
        (true, { checks := [{ name := "combined-status", conclusion := state }],
                 total := 1, passed := 1, failed := 0, error := none })
      else
        (false, { checks := [{ name := "combined-status", conclusion := state }],
                  total := 1, passed := 0, failed := 1, error := none })
    | none =>
      (false, { checks := [], total := 0, passed := 0, failed := 0,
                error := some "No checks found" })

/-- A raw GitLab job entry (`name` and `status` looked up with `.get`). -/
structure GLJob where
  name : Option String
  status : Option String
deriving DecidableEq, Repr

/-- A counted job in the GitLab detail record. -/
structure GLJobInfo where
  name : String
  status : String
deriving DecidableEq, Repr

/-- The GitLab detail dict built by `_check_all_gitlab_jobs_passed`. -/
structure GLDetails where
  jobs : List GLJobInfo
  total : Nat
  passed : Nat
  failed : Nat
  error : Option String
deriving DecidableEq, Repr

/-- One step of the counting loop over jobs in `_check_all_gitlab_jobs_passed`:
every job is counted; any status other than `"success"` increments `failed`. -/
def countGitlabJob (d : GLDetails) (j : GLJob) : GLDetails :=
  let status := j.status.getD "unknown"
  { d with
    total := d.total + 1
    jobs := d.jobs ++ [{ name := j.name.getD "unknown", status := status }]
    passed := if status = "success" then d.passed + 1 else d.passed
    failed := if status = "success" then d.failed else d.failed + 1 }

/-- The counting loop of `_check_all_gitlab_jobs_passed` over the job list. -/
def countGitlabJobs (jobs : List GLJob) : GLDetails :=
  jobs.foldl countGitlabJob { jobs := [], total := 0, passed := 0, failed := 0, error := none }

/-- `_check_all_gitlab_jobs_passed`.  `jobsResp` is the parsed job list of the
pipeline-jobs endpoint; `none` or an empty list (falsy JSON) yields the
`'No jobs found'` record. -/
def check_all_gitlab_jobs_passed (jobsResp : Option (List GLJob)) : Bool × GLDetails :=
  match jobsResp with
  | some (j :: js) =>
    let d := countGitlabJobs (j :: js)
    (decide (0 < d.total) && decide (d.failed = 0), d)
  | _ =>
    (false, { jobs := [], total := 0, passed := 0, failed := 0,
              error := some "No jobs found" })

/-- A raw GitHub PR-commit entry; `commits[0]['sha']` indexes the key, so the
field is mandatory. -/
structure GHCommit where
  sha : String
deriving DecidableEq, Repr

/-- `_get_github_initial_commit`: the SHA of the first element of the returned
commit page (`per_page=1, page=1`), `none` when there is no usable response or
the list is empty. -/
def get_github_initial_commit (resp : Option (List GHCommit)) : Option String :=
  match resp with
  | some (c :: _) => some c.sha
  | _ => none

/-- A raw GitLab MR-commit entry; `commit.get('id')` may be absent. -/
structure GLCommit where
  id : Option String
deriving DecidableEq, Repr

/-- `_get_gitlab_initial_commit`: the `id` of the **last** element of the
returned commit list (GitLab returns commits newest-first), `none` when there
is no usable response or the list is empty. -/
def get_gitlab_initial_commit (resp : Option (List GLCommit)) : Option String :=
  match resp with
  | some (c :: cs) => ((c :: cs).getLast (List.cons_ne_nil c cs)).id
  | _ => none

/-- A raw GitLab pipeline entry; `pipelines[0].get('id')` may be absent. -/
structure GLPipeline where
  id : Option Nat
deriving DecidableEq, Repr

/-- `_get_gitlab_pipeline_for_sha`: the `id` of the first pipeline returned for
the SHA (query is ordered by id ascending, `per_page=1`). -/
def get_gitlab_pipeline_for_sha (resp : Option (List GLPipeline)) : Option Nat :=
  match resp with
  | some (p :: _) => p.id
  | _ => none

/-- `PR_LIMIT` (module-level constant). -/
def PR_LIMIT : Nat := 100

/-- The shared pagination loop of `_get_github_prs` / `_get_gitlab_mrs`.
`fetch page` is the parsed JSON list returned for that page (`none` when the
requester returned no response).  Returns the accumulated items together with
the list of page numbers actually requested (instrumentation: the source
issues exactly one HTTP request per recorded page).  The loop guard is
`(page-1)*per_page < PR_LIMIT` (here `perPage` / `cap`); the `fuel` argument
only bounds the recursion and is chosen large enough at every call site. -/
def paginateLoop {α : Type} (fetch : Nat → Option (List α)) (perPage cap : Nat) :
    Nat → Nat → List α × List Nat
  | 0, _ => ([], [])
  | fuel + 1, page =>
    if (page - 1) * perPage < cap then
      match fetch page with
      | none => ([], [page])
      | some [] => ([], [page])
      | some batch =>
        if batch.length < perPage then (batch, [page])
        else
          let rest := paginateLoop fetch perPage cap fuel (page + 1)
          (batch ++ rest.1, page :: rest.2)
    else ([], [])

/-- `_get_github_prs`: paginate the closed-PR listing, `per_page = 100`,
capped by `PR_LIMIT`, starting at page 1. -/
def get_github_prs {α : Type} (fetch : Nat → Option (List α)) : List α × List Nat :=
  paginateLoop fetch 100 PR_LIMIT (PR_LIMIT + 1) 1

/-- `_get_gitlab_mrs`: same loop over the merged-MR listing. -/
def get_gitlab_mrs {α : Type} (fetch : Nat → Option (List α)) : List α × List Nat :=
  paginateLoop fetch 100 PR_LIMIT (PR_LIMIT + 1) 1

/-- A GitHub PR object as consumed by `_process_github`: `merged_at` is tested
with `is None`, `number` is indexed. -/
structure GHPR where
  number : Nat
  merged_at : Option String
deriving DecidableEq, Repr

/-- A GitLab MR object as consumed by `_process_gitlab`. -/
structure GLMR where
  iid : Nat
deriving DecidableEq, Repr

/-- The oracles standing for the GitHub network during `_process_github`:
per PR number the parsed commit page, and per SHA the parsed check-runs list
and combined-status state. -/
structure GHEnv where
  commitsOf : Nat → Option (List GHCommit)
  checkRunsOf : String → Option (List CheckRun)
  statusOf : String → Option String

/-- The body of the per-PR loop in `_process_github`, acting on the counter
triple `(total, passes, failures)`: skip unmerged PRs; count merged ones;
skip (no counter) when the initial SHA is falsy; otherwise classify by
`_check_all_github_checks_passed`. -/
def githubPRStep (env : GHEnv) (acc : Nat × Nat × Nat) (pr : GHPR) : Nat × Nat × Nat :=
  match pr.merged_at with
  | none => acc
  | some _ =>
    match truthyStr (get_github_initial_commit (env.commitsOf pr.number)) with
    | none => (acc.1 + 1, acc.2.1, acc.2.2)
    | some sha =>
      if (check_all_github_checks_passed (env.checkRunsOf sha) (env.statusOf sha)).1 then
        (acc.1 + 1, acc.2.1 + 1, acc.2.2)
      else
        (acc.1 + 1, acc.2.1, acc.2.2 + 1)

/-- The per-repository result dict (`ftpr` as an exact rational). -/
structure RepoResult where
  repo_name : String
  platform : String
  total_merged : Nat
  first_time_passes : Nat
  first_time_failures : Nat
  ftpr : ℚ
deriving DecidableEq, Repr

/-- `_process_github`: fold the per-PR step over the PR list, then build the
result record with `ftpr = round((passes / total * 100) if total > 0 else 0, 2)`. -/
def process_github (repoPath : String) (prs : List GHPR) (env : GHEnv) : RepoResult :=
  let acc := prs.foldl (githubPRStep env) (0, 0, 0)
  { repo_name := repoPath
    platform := "GitHub"
    total_merged := acc.1
    first_time_passes := acc.2.1
    first_time_failures := acc.2.2
    ftpr := pyRound2 (if 0 < acc.1 then (acc.2.1 : ℚ) / (acc.1 : ℚ) * 100 else 0) }

/-- The oracles standing for the GitLab network during `_process_gitlab`:
per MR iid the parsed commit list, per SHA the parsed pipeline list, and per
pipeline id the parsed job list. -/
structure GLEnv where
  commitsOf : Nat → Option (List GLCommit)
  pipelinesOf : String → Option (List GLPipeline)
  jobsOf : Nat → Option (List GLJob)

/-- The body of the per-MR loop in `_process_gitlab`: every MR increments
`total` (the listing is server-side filtered to merged); a falsy initial SHA
skips the MR; a falsy pipeline id counts it as a failure; otherwise classify
by `_check_all_gitlab_jobs_passed`. -/
def gitlabMRStep (env : GLEnv) (acc : Nat × Nat × Nat) (mr : GLMR) : Nat × Nat × Nat :=
  match truthyStr (get_gitlab_initial_commit (env.commitsOf mr.iid)) with
  | none => (acc.1 + 1, acc.2.1, acc.2.2)
  | some sha =>
    match truthyNat (get_gitlab_pipeline_for_sha (env.pipelinesOf sha)) with
    | none => (acc.1 + 1, acc.2.1, acc.2.2 + 1)
    | some pid =>
      if (check_all_gitlab_jobs_passed (env.jobsOf pid)).1 then
        (acc.1 + 1, acc.2.1 + 1, acc.2.2)
      else
        (acc.1 + 1, acc.2.1, acc.2.2 + 1)

/-- `_process_gitlab`: fold the per-MR step over the MR list, then build the
result record exactly as the GitHub side does. -/
def process_gitlab (projectId : String) (mrs : List GLMR) (env : GLEnv) : RepoResult :=
  let acc := mrs.foldl (gitlabMRStep env) (0, 0, 0)
  { repo_name := projectId
    platform := "GitLab"
    total_merged := acc.1
    first_time_passes := acc.2.1
    first_time_failures := acc.2.2
    ftpr := pyRound2 (if 0 < acc.1 then (acc.2.1 : ℚ) / (acc.1 : ℚ) * 100 else 0) }

/-- A repository configuration as consumed by `run` (only the dispatch key
matters for the aggregator's control flow). -/
structure RepoConfig where
  platform : String
  url : String
  token : String
  repo_path : String

/-- An uncaught Python exception, as far as the embedding distinguishes them. -/
inductive PyError where
  | valueError
deriving DecidableEq, Repr

/-- `run`: for each config in order, dispatch on `platform.lower()`; an
unsupported platform is skipped (`continue`); an adapter call that raises is
caught at the loop boundary, logged and skipped; a successful result is
appended.  The adapter calls are abstracted as `Except`-valued oracles
(`.error` models an uncaught exception escaping the adapter). -/
def run (cfgs : List RepoConfig)
    (processGithubOf processGitlabOf : RepoConfig → Except PyError RepoResult) :
    List RepoResult :=
  cfgs.foldl (fun results cfg =>
    let platform := cfg.platform.toLower
    if platform = "github" then
      match processGithubOf cfg with
      | .ok r => results ++ [r]
      | .error _ => results
    else if platform = "gitlab" then
      match processGitlabOf cfg with
      | .ok r => results ++ [r]
      | .error _ => results
    else results) []

/-- The value of a decimal digit string. -/
def digitsVal (l : List Char) : Nat :=
  l.foldl (fun acc c => acc * 10 + (c.toNat - 48)) 0

/-- Python `int(s)` on a string: optional surrounding whitespace, an optional
sign, then a nonempty digit string; anything else raises `ValueError`
(modelled as `none`). -/
def parseInt (s : String) : Option Int :=
  let cs := s.data.dropWhile (fun c => c.isWhitespace)
  let cs := (cs.reverse.dropWhile (fun c => c.isWhitespace)).reverse
  match cs with
  | [] => none
  | '-' :: rest =>
    if rest ≠ [] ∧ rest.all Char.isDigit then some (-(digitsVal rest : Int)) else none
  | '+' :: rest =>
    if rest ≠ [] ∧ rest.all Char.isDigit then some ((digitsVal rest : Int)) else none
  | _ =>
    if cs.all Char.isDigit then some ((digitsVal cs : Int)) else none

/-- An HTTP response as `_make_request` inspects it: a status code and the two
rate-limit headers it reads.  The parsed body is irrelevant to the requester's
control flow. -/
structure HttpResponse where
  statusCode : Nat
  retryAfter : Option String
  rateLimitReset : Option String
deriving DecidableEq, Repr

/-- The outcome of one `requests.get` call: either a raised
`requests.exceptions.RequestException` (the only class the `except` clause
catches) or a response object. -/
inductive AttemptOutcome where
  | exc
  | resp (r : HttpResponse)

/-- The retry loop of `_make_request`.  `attempts i` is the outcome of the
`i`-th `requests.get` call; `now` is `int(time.time())`; `rem` is the number
of loop iterations left.  `Except.error` models an exception that escapes the
function: `int()` on a non-numeric header string raises `ValueError`, and
`time.sleep` on a negative `Retry-After` value raises `ValueError`; neither is
a `RequestException`, so neither is caught.  A response with status ≥ 400
that reaches `response.raise_for_status()` raises an `HTTPError`, which the
`except` clause catches (back-off, next attempt). -/
def makeRequestLoop (attempts : Nat → AttemptOutcome) (now : Int) :
    Nat → Nat → Except PyError (Option HttpResponse)
  | 0, _ => .ok none
  | rem + 1, i =>
    match attempts i with
    | .exc => makeRequestLoop attempts now rem (i + 1)
    | .resp r =>
      if r.statusCode = 429 then
        match r.retryAfter with
        | none => makeRequestLoop attempts now rem (i + 1)
        | some s =>
          match parseInt s with
          | none => .error .valueError
          | some v =>
            if v < 0 then .error .valueError
            else makeRequestLoop attempts now rem (i + 1)
      else
        if r.statusCode = 403 then
          match truthyStr r.rateLimitReset with
          | some s =>
            match parseInt s with
            | none => .error .valueError
            | some reset =>
              if 0 < reset - now then makeRequestLoop attempts now rem (i + 1)
              else makeRequestLoop attempts now rem (i + 1)
          | none => makeRequestLoop attempts now rem (i + 1)
        else
          if 400 ≤ r.statusCode then makeRequestLoop attempts now rem (i + 1)
          else .ok (some r)

/-- `_make_request` with its default retry budget of 3 attempts. -/
def makeRequest (attempts : Nat → AttemptOutcome) (now : Int) :
    Except PyError (Option HttpResponse) :=
  makeRequestLoop attempts now 3 0

section Proofs

/-- The per-PR step preserves `passes + failures ≤ total`. -/
theorem githubPRStep_inv (env : GHEnv) (acc : Nat × Nat × Nat) (pr : GHPR)
    (h : acc.2.1 + acc.2.2 ≤ acc.1) :
    (githubPRStep env acc pr).2.1 + (githubPRStep env acc pr).2.2 ≤ (githubPRStep env acc pr).1 := by
  unfold githubPRStep
  split
  · exact h
  · split
    · show acc.2.1 + acc.2.2 ≤ acc.1 + 1
      omega
    · split
      · show acc.2.1 + 1 + acc.2.2 ≤ acc.1 + 1
        omega
      · show acc.2.1 + (acc.2.2 + 1) ≤ acc.1 + 1
        omega

/-- Folding the per-PR step preserves `passes + failures ≤ total`. -/
theorem githubFold_inv (env : GHEnv) (prs : List GHPR) (acc : Nat × Nat × Nat)
    (h : acc.2.1 + acc.2.2 ≤ acc.1) :
    (prs.foldl (githubPRStep env) acc).2.1 + (prs.foldl (githubPRStep env) acc).2.2
      ≤ (prs.foldl (githubPRStep env) acc).1 := by
  induction prs generalizing acc with
  | nil => simpa using h
  | cons pr rest ih =>
    simp only [List.foldl_cons]
    exact ih _ (githubPRStep_inv env acc pr h)

/-- The per-MR step preserves `passes + failures ≤ total`. -/
theorem gitlabMRStep_inv (env : GLEnv) (acc : Nat × Nat × Nat) (mr : GLMR)
    (h : acc.2.1 + acc.2.2 ≤ acc.1) :
    (gitlabMRStep env acc mr).2.1 + (gitlabMRStep env acc mr).2.2 ≤ (gitlabMRStep env acc mr).1 := by
  unfold gitlabMRStep
  split
  · show acc.2.1 + acc.2.2 ≤ acc.1 + 1
    omega
  · split
    · show acc.2.1 + (acc.2.2 + 1) ≤ acc.1 + 1
      omega
    · split
      · show acc.2.1 + 1 + acc.2.2 ≤ acc.1 + 1
        omega
      · show acc.2.1 + (acc.2.2 + 1) ≤ acc.1 + 1
        omega

/-- Folding the per-MR step preserves `passes + failures ≤ total`. -/
theorem gitlabFold_inv (env : GLEnv) (mrs : List GLMR) (acc : Nat × Nat × Nat)
    (h : acc.2.1 + acc.2.2 ≤ acc.1) :
    (mrs.foldl (gitlabMRStep env) acc).2.1 + (mrs.foldl (gitlabMRStep env) acc).2.2
      ≤ (mrs.foldl (gitlabMRStep env) acc).1 := by
  induction mrs generalizing acc with
  | nil => simpa using h
  | cons mr rest ih =>
    simp only [List.foldl_cons]
    exact ih _ (gitlabMRStep_inv env acc mr h)

/-- C1: for every `RepoResult` produced by either adapter, against any list of
change requests and any network oracles,
`first_time_passes + first_time_failures ≤ total_merged`: a merged request
whose initial commit SHA cannot be resolved has already incremented the total
but increments neither the pass nor the fail counter. -/
theorem counts_le_total_merged :
    (∀ (repoPath : String) (prs : List GHPR) (env : GHEnv),
      (process_github repoPath prs env).first_time_passes
        + (process_github repoPath prs env).first_time_failures
        ≤ (process_github repoPath prs env).total_merged)
    ∧ (∀ (projectId : String) (mrs : List GLMR) (env : GLEnv),
      (process_gitlab projectId mrs env).first_time_passes
        + (process_gitlab projectId mrs env).first_time_failures
        ≤ (process_gitlab projectId mrs env).total_merged) := by
  constructor
  · intro repoPath prs env
    exact githubFold_inv env prs (0, 0, 0) (by simp)
  · intro projectId mrs env
    exact gitlabFold_inv env mrs (0, 0, 0) (by simp)

/-- The two ways of writing the FTPR formula agree over `ℚ`. -/
theorem pyRound2_ftpr_eq (t p : Nat) :
    pyRound2 (if 0 < t then (p : ℚ) / (t : ℚ) * 100 else 0)
      = if 0 < t then pyRound2 (100 * (p : ℚ) / (t : ℚ)) else 0 := by
  by_cases h : 0 < t
  · simp only [h, if_true]
    congr 1
    ring
  · simp only [h, if_false]
    simp [pyRound2]

/-- C2: for every `RepoResult` produced by either adapter, `ftpr` equals
`round(100 * first_time_passes / total_merged, 2)` when `total_merged > 0`,
and `0` when `total_merged = 0` (floats modelled as exact rationals). -/
theorem ftpr_equals_rounded_ratio :
    (∀ (repoPath : String) (prs : List GHPR) (env : GHEnv),
      (process_github repoPath prs env).ftpr =
        if 0 < (process_github repoPath prs env).total_merged then
          pyRound2 (100 * ((process_github repoPath prs env).first_time_passes : ℚ)
            / ((process_github repoPath prs env).total_merged : ℚ))
        else 0)
    ∧ (∀ (projectId : String) (mrs : List GLMR) (env : GLEnv),
      (process_gitlab projectId mrs env).ftpr =
        if 0 < (process_gitlab projectId mrs env).total_merged then
          pyRound2 (100 * ((process_gitlab projectId mrs env).first_time_passes : ℚ)
            / ((process_gitlab projectId mrs env).total_merged : ℚ))
        else 0) := by
  constructor
  · intro repoPath prs env
    exact pyRound2_ftpr_eq _ _
  · intro projectId mrs env
    exact pyRound2_ftpr_eq _ _

/-- The check-runs counting loop never touches the `error` field. -/
theorem countGithubChecks_error_aux (runs : List CheckRun) (d : GHDetails) :
    (runs.foldl countGithubCheck d).error = d.error := by
  induction runs generalizing d with
  | nil => rfl
  | cons c rest ih =>
    simp only [List.foldl_cons]
    rw [ih]
    unfold countGithubCheck
    split <;> rfl

/-- The jobs counting loop never touches the `error` field. -/
theorem countGitlabJobs_error_aux (jobs : List GLJob) (d : GLDetails) :
    (jobs.foldl countGitlabJob d).error = d.error := by
  induction jobs generalizing d with
  | nil => rfl
  | cons j rest ih =>
    simp only [List.foldl_cons]
    rw [ih]
    rfl

/-- The jobs counting loop adds one failure per job whose status is not
`"success"`. -/
theorem countGitlabJobs_failed_aux (jobs : List GLJob) (d : GLDetails) :
    (jobs.foldl countGitlabJob d).failed
      = d.failed + (jobs.filter (fun j => j.status.getD "unknown" != "success")).length := by
  induction jobs generalizing d with
  | nil => simp
  | cons j rest ih =>
    simp only [List.foldl_cons, List.filter_cons]
    rw [ih]
    unfold countGitlabJob
    by_cases hs : j.status.getD "unknown" = "success" <;> simp [hs] <;> omega

/-- C3: the verdict reduction on both platforms computes
`all_passed = (total > 0) and (failed == 0)`; on GitLab every job status other
than `"success"` counts as a failing job; when zero checks/jobs are found the
verdict is `all_passed = false` with an explicit no-checks/no-jobs error
marker in the detail record, and a verdict that counted at least one
check/job never carries the marker, so the two failure shapes are
distinguishable. -/
theorem verdict_reducer_spec :
    (∀ (cr : Option (List CheckRun)) (s : Option String),
      (check_all_github_checks_passed cr s).1 =
        (decide (0 < (check_all_github_checks_passed cr s).2.total) &&
         decide ((check_all_github_checks_passed cr s).2.failed = 0)))
    ∧ (∀ js : Option (List GLJob),
      (check_all_gitlab_jobs_passed js).1 =
        (decide (0 < (check_all_gitlab_jobs_passed js).2.total) &&
         decide ((check_all_gitlab_jobs_passed js).2.failed = 0)))
    ∧ (∀ l : List GLJob, l ≠ [] →
      (check_all_gitlab_jobs_passed (some l)).2.failed =
        (l.filter (fun j => j.status.getD "unknown" != "success")).length)
    ∧ (check_all_github_checks_passed none none =
        (false, { checks := [], total := 0, passed := 0, failed := 0,
                  error := some "No checks found" })
      ∧ check_all_github_checks_passed (some []) none =
        (false, { checks := [], total := 0, passed := 0, failed := 0,
                  error := some "No checks found" })
      ∧ check_all_gitlab_jobs_passed none =
        (false, { jobs := [], total := 0, passed := 0, failed := 0,
                  error := some "No jobs found" })
      ∧ check_all_gitlab_jobs_passed (some []) =
        (false, { jobs := [], total := 0, passed := 0, failed := 0,
                  error := some "No jobs found" }))
    ∧ (∀ (cr : Option (List CheckRun)) (s : Option String),
      0 < (check_all_github_checks_passed cr s).2.total →
        (check_all_github_checks_passed cr s).2.error = none)
    ∧ (∀ js : Option (List GLJob),
      0 < (check_all_gitlab_jobs_passed js).2.total →
        (check_all_gitlab_jobs_passed js).2.error = none) := by
  refine ⟨?_, ?_, ?_, ⟨rfl, rfl, rfl, rfl⟩, ?_, ?_⟩
  · intro cr s
    match cr with
    | some (c :: cs) => rfl
    | some [] =>
      match s with
      | some state =>
        by_cases hs : state = "success" <;>
          simp [check_all_github_checks_passed, hs]
      | none => rfl
    | none =>
      match s with
      | some state =>
        by_cases hs : state = "success" <;>
          simp [check_all_github_checks_passed, hs]
      | none => rfl
  · intro js
    match js with
    | some (j :: tl) => rfl
    | some [] => rfl
    | none => rfl
  · intro l hl
    match l with
    | j :: tl =>
      show (countGitlabJobs (j :: tl)).failed = _
      unfold countGitlabJobs
      rw [countGitlabJobs_failed_aux]
      simp
  · intro cr s
    match cr with
    | some (c :: cs) =>
      intro _
      show (countGithubChecks (c :: cs)).error = none
      unfold countGithubChecks
      rw [countGithubChecks_error_aux]
    | some [] =>
      match s with
      | some state =>
        by_cases hs : state = "success" <;>
          simp [check_all_github_checks_passed, hs]
      | none => intro h; exact absurd h (by decide)
    | none =>
      match s with
      | some state =>
        by_cases hs : state = "success" <;>
          simp [check_all_github_checks_passed, hs]
      | none => intro h; exact absurd h (by decide)
  · intro js
    match js with
    | some (j :: tl) =>
      intro _
      show (countGitlabJobs (j :: tl)).error = none
      unfold countGitlabJobs
      rw [countGitlabJobs_error_aux]
    | some [] => intro h; exact absurd h (by decide)
    | none => intro h; exact absurd h (by decide)

/-- Witness for C3: the hypothesis-bearing conjuncts applied at concrete
inputs (a canceled job counts as failing; counted checks/jobs carry no error
marker). -/
theorem verdict_reducer_spec_witness :
    (check_all_gitlab_jobs_passed (some [{ name := some "a", status := some "canceled" }])).2.failed
      = ([({ name := some "a", status := some "canceled" } : GLJob)].filter
          (fun j => j.status.getD "unknown" != "success")).length
    ∧ (check_all_github_checks_passed
        (some [{ name := some "ci", conclusion := some "success" }]) none).2.error = none
    ∧ (check_all_gitlab_jobs_passed (some [{ name := some "a", status := some "success" }])).2.error
      = none :=
  ⟨verdict_reducer_spec.2.2.1 _ (by decide),
   verdict_reducer_spec.2.2.2.2.1 _ _ (by decide),
   verdict_reducer_spec.2.2.2.2.2 _ (by decide)⟩

/-- A mock paginated source with successive page sizes `[100, 100, 37]`. -/
def mockPages : Nat → Option (List Nat) :=
  fun p =>
    if p = 1 then some (List.replicate 100 0)
    else if p = 2 then some (List.replicate 100 0)
    else if p = 3 then some (List.replicate 37 0)
    else none

/-- C4: the pagination loop never issues a request for a page `p` with
`(p-1)*per_page ≥ hard_cap` (every recorded request satisfies the loop
guard), and against a mock source with page sizes `[100, 100, 37]` and
`per_page = hard_cap = 100` the GitHub PR walker returns exactly 100 items
and issues exactly one request, for page 1. -/
theorem pagination_cap_spec :
    (∀ (α : Type) (fetch : Nat → Option (List α)) (perPage cap fuel page : Nat),
      (paginateLoop fetch perPage cap fuel page).2.all
        (fun p => decide ((p - 1) * perPage < cap)) = true)
    ∧ (get_github_prs mockPages).1.length = 100
    ∧ (get_github_prs mockPages).2 = [1] := by
  refine ⟨?_, ?_, ?_⟩
  · intro α fetch perPage cap fuel
    induction fuel with
    | zero => intro page; rfl
    | succ n ih =>
      intro page
      unfold paginateLoop
      split
      · next hguard =>
        split
        · simpa using hguard
        · simpa using hguard
        · split
          · simpa using hguard
          · simpa [hguard] using ih (page + 1)
      · rfl
  · show (paginateLoop mockPages 100 PR_LIMIT (PR_LIMIT + 1) 1).1.length = 100
    rfl
  · show (paginateLoop mockPages 100 PR_LIMIT (PR_LIMIT + 1) 1).2 = [1]
    rfl

/-- C5: for every GitLab MR whose commit-list request returns a non-empty
sequence, the resolved initial commit SHA is the `id` of the **last** element
of the returned sequence. -/
theorem gitlab_initial_commit_is_last (l : List GLCommit) (h : l ≠ []) :
    get_gitlab_initial_commit (some l) = (l.getLast h).id := by
  match l with
  | c :: cs => rfl

/-- Witness for C5: for the returned list `[c3, c2, c1]` (newest first) the
resolved initial SHA equals `c1.id`. -/
theorem gitlab_initial_commit_is_last_witness :
    get_gitlab_initial_commit
        (some [{ id := some "c3" }, { id := some "c2" }, { id := some "c1" }])
      = some "c1" :=
  (gitlab_initial_commit_is_last
      [{ id := some "c3" }, { id := some "c2" }, { id := some "c1" }]
      (by decide)).trans rfl

/-- C6: missing-data handling is asymmetric between the adapters.  A GitLab MR
whose initial SHA resolves (truthy) but for which no pipeline is found is
counted as a first-time failure (`failures + 1`, on top of the unconditional
`total + 1`); a merged GitHub PR whose initial SHA cannot be resolved is
skipped: `total + 1` but neither `passes` nor `failures` moves. -/
theorem missing_data_asymmetry :
    (∀ (env : GLEnv) (acc : Nat × Nat × Nat) (mr : GLMR) (sha : String),
      truthyStr (get_gitlab_initial_commit (env.commitsOf mr.iid)) = some sha →
      truthyNat (get_gitlab_pipeline_for_sha (env.pipelinesOf sha)) = none →
      gitlabMRStep env acc mr = (acc.1 + 1, acc.2.1, acc.2.2 + 1))
    ∧ (∀ (env : GHEnv) (acc : Nat × Nat × Nat) (pr : GHPR) (ts : String),
      pr.merged_at = some ts →
      truthyStr (get_github_initial_commit (env.commitsOf pr.number)) = none →
      githubPRStep env acc pr = (acc.1 + 1, acc.2.1, acc.2.2)) := by
  constructor
  · intro env acc mr sha hsha hpipe
    unfold gitlabMRStep
    simp only [hsha, hpipe]
  · intro env acc pr ts hm hsha
    unfold githubPRStep
    simp only [hm, hsha]

/-- Witness for C6: both asymmetric behaviours at concrete inputs. -/
theorem missing_data_asymmetry_witness :
    gitlabMRStep
        { commitsOf := fun _ => some [{ id := some "s" }],
          pipelinesOf := fun _ => none,
          jobsOf := fun _ => none }
        (5, 2, 1) { iid := 7 } = (6, 2, 2)
    ∧ githubPRStep
        { commitsOf := fun _ => none,
          checkRunsOf := fun _ => none,
          statusOf := fun _ => none }
        (5, 2, 1) { number := 7, merged_at := some "2024-01-01" } = (6, 2, 1) :=
  ⟨missing_data_asymmetry.1 _ (5, 2, 1) { iid := 7 } "s" rfl rfl,
   missing_data_asymmetry.2 _ (5, 2, 1) { number := 7, merged_at := some "2024-01-01" }
     "2024-01-01" rfl rfl⟩

/-- C7: a merged GitHub PR whose check-runs endpoint yields zero check-run
entries but whose combined commit-status is `"success"` gets a passing
verdict backed by exactly one synthetic check named `"combined-status"`
(`total = 1`, `passed = 1`, `failed = 0`, `all_passed = true`). -/
theorem github_combined_status_fallback_pass :
    check_all_github_checks_passed (some []) (some "success") =
      (true, { checks := [{ name := "combined-status", conclusion := "success" }],
               total := 1, passed := 1, failed := 0, error := none }) := by
  rfl

/-- A check-run with a null (or empty, hence falsy) conclusion is not counted. -/
theorem countGithubChecks_all_null_aux (runs : List CheckRun) (d : GHDetails)
    (hall : ∀ c ∈ runs, c.conclusion = none) :
    runs.foldl countGithubCheck d = d := by
  induction runs generalizing d with
  | nil => rfl
  | cons c rest ih =>
    simp only [List.foldl_cons]
    have hc : c.conclusion = none := hall c (by simp)
    have hstep : countGithubCheck d c = d := by
      unfold countGithubCheck
      rw [hc]
      rfl
    rw [hstep]
    exact ih d (fun x hx => hall x (by simp [hx]))

/-- C10: check-run entries whose `conclusion` is null are excluded from the
counts; when the check-runs endpoint returns a non-empty list all of whose
entries have null conclusion, the commit is judged a failure with
`total = 0`, the combined-status fallback is not consulted (the result is the
same for every value of the status response), and the detail record carries
no `'No checks found'` error marker. -/
theorem null_conclusion_checks_excluded (l : List CheckRun) (s : Option String)
    (hne : l ≠ []) (hall : ∀ c ∈ l, c.conclusion = none) :
    check_all_github_checks_passed (some l) s =
      (false, { checks := [], total := 0, passed := 0, failed := 0, error := none }) := by
  match l with
  | c :: cs =>
    show (decide (0 < (countGithubChecks (c :: cs)).total) &&
          decide ((countGithubChecks (c :: cs)).failed = 0),
          countGithubChecks (c :: cs)) = _
    unfold countGithubChecks
    rw [countGithubChecks_all_null_aux (c :: cs) _ hall]
    rfl

/-- Witness for C10: a single null-conclusion check-run with a successful
combined status still yields the zero-total failure verdict (fallback
ignored, no error marker). -/
theorem null_conclusion_checks_excluded_witness :
    check_all_github_checks_passed (some [{ name := some "ci", conclusion := none }])
        (some "success") =
      (false, { checks := [], total := 0, passed := 0, failed := 0, error := none }) :=
  null_conclusion_checks_excluded [{ name := some "ci", conclusion := none }]
    (some "success") (by decide) (by decide)

/-- An attempt outcome whose rate-limit headers, if consulted, are
well-formed: a 429 response's `Retry-After`, when present, parses as a
nonnegative integer (so `int()` succeeds and `time.sleep` accepts the value),
and a 403 response's `X-RateLimit-Reset`, when present and nonempty, parses
as an integer. -/
def goodAttempt (a : AttemptOutcome) : Bool :=
  match a with
  | .exc => true
  | .resp r =>
    if r.statusCode = 429 then
      match r.retryAfter with
      | none => true
      | some s =>
        match parseInt s with
        | some v => decide (0 ≤ v)
        | none => false
    else if r.statusCode = 403 then
      match truthyStr r.rateLimitReset with
      | some s => (parseInt s).isSome
      | none => true
    else true

/-- Under well-formed headers the retry loop always returns (no exception
escapes). -/
theorem makeRequestLoop_ok (attempts : Nat → AttemptOutcome) (now : Int)
    (h : ∀ i, goodAttempt (attempts i) = true) :
    ∀ (rem i : Nat), ∃ o, makeRequestLoop attempts now rem i = Except.ok o := by
  intro rem
  induction rem with
  | zero => intro i; exact ⟨none, rfl⟩
  | succ n ih =>
    intro i
    have hg := h i
    unfold makeRequestLoop
    match ha : attempts i with
    | .exc => exact ih (i + 1)
    | .resp r =>
      rw [ha] at hg
      unfold goodAttempt at hg
      by_cases h429 : r.statusCode = 429
      · simp only [h429, if_true] at hg ⊢
        match hra : r.retryAfter with
        | none => exact ih (i + 1)
        | some s =>
          simp only [hra] at hg ⊢
          match hp : parseInt s with
          | none => simp [hp] at hg
          | some v =>
            simp only [hp] at hg ⊢
            have hv : ¬ v < 0 := by
              simp only [decide_eq_true_eq] at hg
              omega
            simp only [hv, if_false]
            exact ih (i + 1)
      · simp only [h429, if_false] at hg ⊢
        by_cases h403 : r.statusCode = 403
        · simp only [h403, if_true] at hg ⊢
          match hrs : truthyStr r.rateLimitReset with
          | none => simp only [hrs]; exact ih (i + 1)
          | some s =>
            simp only [hrs] at hg ⊢
            match hp : parseInt s with
            | none => simp [hp] at hg
            | some v =>
              simp only [hp]
              by_cases hw : 0 < v - now
              · simp only [hw, if_true]
                exact ih (i + 1)
              · simp only [hw, if_false]
                exact ih (i + 1)
        · simp only [h403, if_false]
          by_cases h4xx : 400 ≤ r.statusCode
          · simp only [h4xx, if_true]
            exact ih (i + 1)
          · simp only [h4xx, if_false]
            exact ⟨some r, rfl⟩

/-- C8 (counterexample): `_make_request` *can* raise past its own boundary.
A server that answers HTTP 429 with the header `Retry-After: abc` makes
`int(response.headers.get('Retry-After', 60))` raise a `ValueError`, which
the `except requests.exceptions.RequestException` clause does not catch, so
the exception propagates to the caller instead of a response or `None`. -/
theorem make_request_raises_on_nonnumeric_retry_after :
    makeRequest
        (fun _ => AttemptOutcome.resp
          { statusCode := 429, retryAfter := some "abc", rateLimitReset := none }) 0
      = Except.error PyError.valueError := by
  rfl

/-- C8 (amended): for every input and every sequence of attempt outcomes in
which each 429 response's `Retry-After` header (when present) parses as a
nonnegative integer and each 403 response's `X-RateLimit-Reset` header (when
present and nonempty) parses as an integer, `_make_request` either returns a
response or returns the sentinel `None` after exhausting the retry budget;
no exception propagates.  (Network-level failures — `RequestException` — are
always caught, any status codes are otherwise fine.) -/
theorem make_request_no_raise_with_wellformed_headers
    (attempts : Nat → AttemptOutcome) (now : Int)
    (h : ∀ i, goodAttempt (attempts i) = true) :
    ∃ o, makeRequest attempts now = Except.ok o :=
  makeRequestLoop_ok attempts now h 3 0

/-- Witness for the amended C8: a server that always answers 200 with no
rate-limit headers. -/
theorem make_request_no_raise_witness :
    ∃ o, makeRequest
        (fun _ => AttemptOutcome.resp
          { statusCode := 200, retryAfter := none, rateLimitReset := none }) 0
      = Except.ok o :=
  make_request_no_raise_with_wellformed_headers _ 0 (fun _ => rfl)

/-- C9: `run` returns, in the original input order, exactly the results of
the configurations whose adapter call succeeds; a configuration whose
adapter raises (or whose platform tag is unsupported) is omitted with no
stub entry, and processing continues with the remaining configurations. -/
theorem run_results_in_order_skip_errors
    (cfgs : List RepoConfig)
    (processGithubOf processGitlabOf : RepoConfig → Except PyError RepoResult) :
    run cfgs processGithubOf processGitlabOf =
      cfgs.filterMap (fun cfg =>
        if cfg.platform.toLower = "github" then (processGithubOf cfg).toOption
        else if cfg.platform.toLower = "gitlab" then (processGitlabOf cfg).toOption
        else none) := by
  have aux : ∀ (l : List RepoConfig) (acc : List RepoResult),
      l.foldl (fun results cfg =>
        let platform := cfg.platform.toLower
        if platform = "github" then
          match processGithubOf cfg with
          | .ok r => results ++ [r]
          | .error _ => results
        else if platform = "gitlab" then
          match processGitlabOf cfg with
          | .ok r => results ++ [r]
          | .error _ => results
        else results) acc =
      acc ++ l.filterMap (fun cfg =>
        if cfg.platform.toLower = "github" then (processGithubOf cfg).toOption
        else if cfg.platform.toLower = "gitlab" then (processGitlabOf cfg).toOption
        else none) := by
    intro l
    induction l with
    | nil => intro acc; simp
    | cons cfg rest ih =>
      intro acc
      simp only [List.foldl_cons, List.filterMap_cons]
      by_cases hgh : cfg.platform.toLower = "github"
      · simp only [hgh, if_true]
        match hr : processGithubOf cfg with
        | .ok r => rw [ih]; simp [Except.toOption, hr]
        | .error e => rw [ih]; simp [Except.toOption, hr]
      · simp only [hgh, if_false]
        by_cases hgl : cfg.platform.toLower = "gitlab"
        · simp only [hgl, if_true]
          match hr : processGitlabOf cfg with
          | .ok r => rw [ih]; simp [Except.toOption, hr]
          | .error e => rw [ih]; simp [Except.toOption, hr]
        · simp only [hgl, if_false]
          rw [ih]
  exact (aux cfgs []).trans (by simp)

end Proofs
